import Mathlib

/-!
# Verification of the welding-simulator motion-evaluation engine

Shallow embedding of the scoring / session-aggregation core of the
`welding-simulator-pwa` repository, together with proofs settling the frozen
claims about it.

Modelling conventions:
* JavaScript `number` arithmetic is idealised as exact arithmetic.  All code
  paths that never take a square root are embedded over `ℚ` (computable,
  decidable), namely the session aggregator of `src/hooks/useSensors.ts`
  (the `useWeldingSimulation` hook), the grade tables, and the certificate
  utilities.  The geometric pipeline of `src/utils/patternRecognition.ts` and
  the rolling-standard-deviation scorers of `src/utils/weldingCalculations.ts`
  use `Math.sqrt`, so they are embedded over `ℝ` with `Real.sqrt`.
* JavaScript strings are embedded as `List Char`; `charCodeAt` is `Char.toNat`.
* `Date.now()` and `Math.random()` are environmental inputs; functions reading
  them take the value as an explicit argument.
* `null`-returning code is embedded with `Option`.
-/

namespace WeldingSim

/-- Letter grades `'A' | 'B' | 'C' | 'D' | 'F'`. -/
inductive Grade where
  | A | B | C | D | F
  deriving DecidableEq, Repr

/-- `WeldingType`: the closed enumeration of techniques. -/
inductive WeldingType where
  | MIG | TIG | ELECTRODO
  deriving DecidableEq, Repr

/-- A `{ min, max }` ideal range (from `WeldingParameters`). -/
structure IdealRange where
  min : ℚ
  max : ℚ
  deriving DecidableEq, Repr

/-- The `scoring` weight record of `WeldingParameters`. -/
structure ScoringWeights where
  angle : ℚ
  distance : ℚ
  speed : ℚ
  smoothness : ℚ
  deriving DecidableEq, Repr

/-- `WeldingParameters` (src/types + useSensors.ts `WELDING_PARAMETERS`). -/
structure WeldingParameters where
  technique : WeldingType
  idealAngle : IdealRange
  idealDistance : IdealRange
  idealSpeed : IdealRange
  scoring : ScoringWeights
  deriving DecidableEq, Repr

/-- A 3-vector of sensor values (`acceleration` field of `SensorData`). -/
structure Vec3 where
  x : ℚ
  y : ℚ
  z : ℚ
  deriving DecidableEq, Repr

/-- The `gyroscope` field of `SensorData`. -/
structure GyroData where
  alpha : ℚ
  beta : ℚ
  gamma : ℚ
  deriving DecidableEq, Repr

/-- `SensorData` (src/types). -/
structure SensorData where
  acceleration : Vec3
  gyroscope : GyroData
  timestamp : ℚ
  deriving DecidableEq, Repr

/-- `ARMarkerData` (only the `position` field is consumed by the engine). -/
structure ARMarkerData where
  position : Vec3
  deriving DecidableEq, Repr

/-- `RealTimeMetrics` — one `InstantMetrics` record per processed sample. -/
structure RealTimeMetrics where
  currentAngle : ℚ
  currentDistance : ℚ
  currentSpeed : ℚ
  stabilityScore : ℚ
  qualityScore : ℚ
  isInRange : Bool
  timestamp : ℚ
  deriving DecidableEq, Repr

/-- `WeldingSession` (src/types).  The `id` string `session_${Date.now()}` is
represented by its numeric timestamp part. -/
structure WeldingSession where
  id : ℚ
  technique : WeldingType
  startTime : ℚ
  endTime : Option ℚ
  duration : ℚ
  parameters : WeldingParameters
  sensorData : List SensorData
  markerData : List ARMarkerData
  metrics : List RealTimeMetrics
  finalScore : ℚ
  grade : Grade
  deriving DecidableEq, Repr

/-- The reactive state owned by the `useWeldingSimulation` hook
(`currentTechnique`, `isRecording`, `currentSession`, `currentMetrics`,
`sessionStartTime`). -/
structure SimState where
  currentTechnique : WeldingType
  isRecording : Bool
  currentSession : Option WeldingSession
  currentMetrics : Option RealTimeMetrics
  sessionStartTime : Option ℚ
  deriving DecidableEq, Repr

/-- The static `WELDING_PARAMETERS` registry of useSensors.ts. -/
def WELDING_PARAMETERS : WeldingType → WeldingParameters
  | .MIG =>
    { technique := .MIG
      idealAngle := ⟨70, 80⟩
      idealDistance := ⟨10, 15⟩
      idealSpeed := ⟨5, 15⟩
      scoring := ⟨40, 30, 20, 10⟩ }
  | .TIG =>
    { technique := .TIG
      idealAngle := ⟨60, 75⟩
      idealDistance := ⟨2, 5⟩
      idealSpeed := ⟨3, 8⟩
      scoring := ⟨40, 30, 20, 10⟩ }
  | .ELECTRODO =>
    { technique := .ELECTRODO
      idealAngle := ⟨60, 80⟩
      idealDistance := ⟨5, 12⟩
      idealSpeed := ⟨8, 20⟩
      scoring := ⟨40, 30, 20, 10⟩ }

/-- `calculateAngleScore` (useSensors.ts): 100 inside the ideal range,
otherwise `max(0, 100 - deviation * 2)` where `deviation` is the distance to
the nearest bound. -/
def calculateAngleScore (angle : ℚ) (idealRange : IdealRange) : ℚ :=
  if angle ≥ idealRange.min ∧ angle ≤ idealRange.max then 100
  else
    let deviation := min |angle - idealRange.min| |angle - idealRange.max|
    max 0 (100 - deviation * 2)

/-- `calculateDistanceScore` (useSensors.ts): the same shape with penalty 5. -/
def calculateDistanceScore (distance : ℚ) (idealRange : IdealRange) : ℚ :=
  if distance ≥ idealRange.min ∧ distance ≤ idealRange.max then 100
  else
    let deviation := min |distance - idealRange.min| |distance - idealRange.max|
    max 0 (100 - deviation * 5)

/-- `calculateSpeedScore` (useSensors.ts): the same shape with penalty 3. -/
def calculateSpeedScore (speed : ℚ) (idealRange : IdealRange) : ℚ :=
  if speed ≥ idealRange.min ∧ speed ≤ idealRange.max then 100
  else
    let deviation := min |speed - idealRange.min| |speed - idealRange.max|
    max 0 (100 - deviation * 3)

/-- `calculateSmoothnessScore` (useSensors.ts): acceleration "variance"
`(x² + y² + z²) / 3`, score `max(0, 100 - variance * 10)`. -/
def calculateSmoothnessScore (sensorData : SensorData) : ℚ :=
  let accel := sensorData.acceleration
  let variance := (accel.x ^ 2 + accel.y ^ 2 + accel.z ^ 2) / 3
  max 0 (100 - variance * 10)

/-- `calculateFinalScore` (useSensors.ts): 0 on an empty metrics list;
otherwise each metric is re-scored per sample, the four per-metric averages
are combined with the technique weights and divided by 100.  The smoothness
re-score feeds `calculateSmoothnessScore` a reconstructed `SensorData` whose
acceleration is zero and whose gyroscope beta is the stored angle. -/
def calculateFinalScore (metrics : List RealTimeMetrics)
    (parameters : WeldingParameters) : ℚ :=
  if metrics.length = 0 then 0
  else
    let avgAngleScore :=
      (metrics.map (fun m =>
        calculateAngleScore m.currentAngle parameters.idealAngle)).sum /
        metrics.length
    let avgDistanceScore :=
      (metrics.map (fun m =>
        calculateDistanceScore m.currentDistance parameters.idealDistance)).sum /
        metrics.length
    let avgSpeedScore :=
      (metrics.map (fun m =>
        calculateSpeedScore m.currentSpeed parameters.idealSpeed)).sum /
        metrics.length
    let avgSmoothnessScore :=
      (metrics.map (fun m =>
        calculateSmoothnessScore
          { acceleration := ⟨0, 0, 0⟩
            gyroscope := ⟨0, m.currentAngle, 0⟩
            timestamp := m.timestamp })).sum /
        metrics.length
    (avgAngleScore * parameters.scoring.angle +
     avgDistanceScore * parameters.scoring.distance +
     avgSpeedScore * parameters.scoring.speed +
     avgSmoothnessScore * parameters.scoring.smoothness) / 100

/-- `getGrade` (useSensors.ts). -/
def getGrade (score : ℚ) : Grade :=
  if score ≥ 90 then .A
  else if score ≥ 80 then .B
  else if score ≥ 70 then .C
  else if score ≥ 60 then .D
  else .F

/-- `stopSession` (useSensors.ts).  The guard
`if (!currentSession || !sessionStartTime) return null` returns `null` and
leaves the reactive state untouched; note that a numeric `sessionStartTime`
of `0` is falsy in JavaScript, hence the extra `t0 = 0` branch.  `Date.now()`
is passed in as `now`.  Returns the value returned to the caller together
with the updated state. -/
def stopSession (now : ℚ) (st : SimState) :
    Option WeldingSession × SimState :=
  match st.currentSession, st.sessionStartTime with
  | some sess, some t0 =>
    if t0 = 0 then (none, st)
    else
      let endTime := now
      let duration := now - t0
      let finalScore := calculateFinalScore sess.metrics sess.parameters
      let grade := getGrade finalScore
      let completedSession : WeldingSession :=
        { sess with
            endTime := some endTime
            duration := duration
            finalScore := finalScore
            grade := grade }
      (some completedSession,
       { st with
           currentSession := some completedSession
           isRecording := false
           sessionStartTime := none })
  | _, _ => (none, st)

/-- `calculateCertificateGrade` (certificateUtils.ts): an independent copy of
the grade breakpoints. -/
def calculateCertificateGrade (score : ℚ) : Grade :=
  if score ≥ 90 then .A
  else if score ≥ 80 then .B
  else if score ≥ 70 then .C
  else if score ≥ 60 then .D
  else .F

/-- Spec-side average of a re-scored metric over the stored sequence:
sum of the per-sample scores divided by the number of samples. -/
def avgOf (metrics : List RealTimeMetrics) (f : RealTimeMetrics → ℚ) : ℚ :=
  (metrics.map f).sum / metrics.length

/-- Spec-side reconstruction of the sensor sample used by the final-score
smoothness re-scoring: zero acceleration, gyroscope beta = stored angle. -/
def metricAsSensorData (m : RealTimeMetrics) : SensorData :=
  { acceleration := ⟨0, 0, 0⟩
    gyroscope := ⟨0, m.currentAngle, 0⟩
    timestamp := m.timestamp }

/-- C10: the session aggregator's `getGrade` and the certificate module's
`calculateCertificateGrade` are extensionally equal, and both implement the
breakpoints ≥90→A, ≥80→B, ≥70→C, ≥60→D, else F. -/
theorem grade_functions_agree (score : ℚ) :
    getGrade score = calculateCertificateGrade score ∧
    getGrade score =
      (if 90 ≤ score then Grade.A
       else if 80 ≤ score then Grade.B
       else if 70 ≤ score then Grade.C
       else if 60 ≤ score then Grade.D
       else Grade.F) :=
  ⟨rfl, rfl⟩

/-- A concrete recording state used to instantiate theorems: one stored
metric (angle 75, distance 12, speed 10 — all ideal for MIG — with stored
composite quality score 55), session started at time 500. -/
def sampleMetric : RealTimeMetrics :=
  { currentAngle := 75, currentDistance := 12, currentSpeed := 10
    stabilityScore := 100, qualityScore := 55, isInRange := true
    timestamp := 600 }

/-- A freshly started session fixture holding `sampleMetric`. -/
def sampleSession : WeldingSession :=
  { id := 500, technique := .MIG, startTime := 500, endTime := none
    duration := 0, parameters := WELDING_PARAMETERS .MIG
    sensorData := [], markerData := [], metrics := [sampleMetric]
    finalScore := 0, grade := .F }

/-- A recording-state fixture holding `sampleSession`. -/
def sampleState : SimState :=
  { currentTechnique := .MIG
    isRecording := true
    currentSession := some sampleSession
    currentMetrics := none
    sessionStartTime := some 500 }

/-- A recording-state fixture with an empty metrics sequence. -/
def emptyMetricsState : SimState :=
  { currentTechnique := .MIG
    isRecording := true
    currentSession := some
      { id := 500, technique := .MIG, startTime := 500, endTime := none
        duration := 0, parameters := WELDING_PARAMETERS .MIG
        sensorData := [], markerData := [], metrics := []
        finalScore := 0, grade := .F }
    currentMetrics := none
    sessionStartTime := some 500 }

/-- C1: for a completed session with a non-empty stored metrics sequence, the
final score computed by `stop()` equals the weighted combination (weights
divided by 100) of the four per-metric averages obtained by re-scoring every
stored metrics entry with the per-sample scoring formulas — the smoothness
formula being applied to the reconstructed sensor sample — and this is not
the average of the stored composite quality scores (second conjunct exhibits
a session where the two disagree). -/
theorem final_score_recomputes_per_metric_averages
    (st : SimState) (sess : WeldingSession) (t0 now : ℚ)
    (h1 : st.currentSession = some sess)
    (h2 : st.sessionStartTime = some t0)
    (h3 : t0 ≠ 0)
    (h4 : sess.metrics ≠ []) :
    ((stopSession now st).1.map (fun s => s.finalScore)) = some
      ((avgOf sess.metrics
          (fun m => calculateAngleScore m.currentAngle
            sess.parameters.idealAngle) * sess.parameters.scoring.angle +
        avgOf sess.metrics
          (fun m => calculateDistanceScore m.currentDistance
            sess.parameters.idealDistance) * sess.parameters.scoring.distance +
        avgOf sess.metrics
          (fun m => calculateSpeedScore m.currentSpeed
            sess.parameters.idealSpeed) * sess.parameters.scoring.speed +
        avgOf sess.metrics
          (fun m => calculateSmoothnessScore (metricAsSensorData m)) *
            sess.parameters.scoring.smoothness) / 100) ∧
    ∃ (ms : List RealTimeMetrics) (p : WeldingParameters), ms ≠ [] ∧
      calculateFinalScore ms p ≠ (ms.map (fun m => m.qualityScore)).sum / ms.length := by
  constructor
  · have hlen : sess.metrics.length ≠ 0 := by
      simpa [List.length_eq_zero] using h4
    simp only [stopSession, h1, h2, if_neg h3, Option.map_some']
    simp [calculateFinalScore, hlen, avgOf, metricAsSensorData]
  · refine ⟨[sampleMetric], WELDING_PARAMETERS .MIG, by simp, ?_⟩
    norm_num [calculateFinalScore, calculateAngleScore, calculateDistanceScore,
      calculateSpeedScore, calculateSmoothnessScore, sampleMetric,
      WELDING_PARAMETERS]

/-- C1 witness: the theorem applied to the concrete fixture. -/
theorem final_score_recomputes_witness :
    ((stopSession 1500 sampleState).1.map (fun s => s.finalScore)) = some
      ((avgOf sampleSession.metrics
          (fun m => calculateAngleScore m.currentAngle
            sampleSession.parameters.idealAngle) *
            sampleSession.parameters.scoring.angle +
        avgOf sampleSession.metrics
          (fun m => calculateDistanceScore m.currentDistance
            sampleSession.parameters.idealDistance) *
            sampleSession.parameters.scoring.distance +
        avgOf sampleSession.metrics
          (fun m => calculateSpeedScore m.currentSpeed
            sampleSession.parameters.idealSpeed) *
            sampleSession.parameters.scoring.speed +
        avgOf sampleSession.metrics
          (fun m => calculateSmoothnessScore (metricAsSensorData m)) *
            sampleSession.parameters.scoring.smoothness) / 100) ∧
    ∃ (ms : List RealTimeMetrics) (p : WeldingParameters), ms ≠ [] ∧
      calculateFinalScore ms p ≠ (ms.map (fun m => m.qualityScore)).sum / ms.length :=
  final_score_recomputes_per_metric_averages sampleState sampleSession 500 1500
    rfl rfl (by norm_num) (by simp [sampleSession, sampleMetric])

/-- Helper: once `sessionStartTime` is `null`, `stopSession` is a no-op
returning `null` (the `!sessionStartTime` guard). -/
theorem stopSession_noop_of_no_startTime (now : ℚ) (st : SimState)
    (h : st.sessionStartTime = none) : stopSession now st = (none, st) := by
  rcases hc : st.currentSession with _ | s <;>
    simp only [stopSession, h, hc]

/-- C2 counterexample: on the concrete fixture the first `stop()` returns
the completed session with final score 100 and grade A, but the second
`stop()` returns `null` — yielding no score and no grade at all, different
from the first call's return — rather than the frozen session state with
the same final score and letter grade, as the claim asserts. -/
theorem stop_twice_counterexample :
    ((stopSession 1500 sampleState).1.map (fun s => (s.finalScore, s.grade))) =
      some (100, Grade.A) ∧
    (stopSession 2500 ((stopSession 1500 sampleState).2)).1 = none ∧
    (stopSession 2500 ((stopSession 1500 sampleState).2)).1 ≠
      (stopSession 1500 sampleState).1 := by
  have h1 : ((stopSession 1500 sampleState).1.map
      (fun s => (s.finalScore, s.grade))) = some (100, Grade.A) := by
    norm_num [stopSession, sampleState, sampleSession, calculateFinalScore,
      calculateAngleScore, calculateDistanceScore, calculateSpeedScore,
      calculateSmoothnessScore, sampleMetric, WELDING_PARAMETERS, getGrade]
  have h2 : (stopSession 2500 ((stopSession 1500 sampleState).2)).1 = none := by
    norm_num [stopSession, sampleState]
  refine ⟨h1, h2, ?_⟩
  rw [h2]
  intro hEq
  rw [← hEq] at h1
  simp at h1

/-- C2 (amended): once `stop()` has completed a session, the state's
`sessionStartTime` is `null`, so a second `stop()` call is a no-op that
returns `null` (not the frozen session); the state — and with it the stored
frozen session, whose final score and letter grade are exactly those the
first call computed — remains unchanged. -/
theorem stop_twice_noop_returns_null
    (st : SimState) (sess : WeldingSession) (t0 now1 now2 : ℚ)
    (h1 : st.currentSession = some sess)
    (h2 : st.sessionStartTime = some t0)
    (h3 : t0 ≠ 0) :
    stopSession now2 ((stopSession now1 st).2) =
      (none, (stopSession now1 st).2) ∧
    ((stopSession now1 st).2).currentSession = (stopSession now1 st).1 ∧
    (((stopSession now1 st).2).currentSession.map
        (fun s => (s.finalScore, s.grade))) =
      ((stopSession now1 st).1.map (fun s => (s.finalScore, s.grade))) := by
  have h5 : (stopSession now1 st).2.sessionStartTime = none := by
    simp only [stopSession, h1, h2, if_neg h3]
  have h6 : ((stopSession now1 st).2).currentSession = (stopSession now1 st).1 := by
    simp only [stopSession, h1, h2, if_neg h3]
  exact ⟨stopSession_noop_of_no_startTime now2 _ h5, h6, by rw [h6]⟩

/-- C2 witness: the amended theorem applied to the concrete fixture. -/
theorem stop_twice_noop_witness :
    stopSession 2500 ((stopSession 1500 sampleState).2) =
      (none, (stopSession 1500 sampleState).2) ∧
    ((stopSession 1500 sampleState).2).currentSession =
      (stopSession 1500 sampleState).1 ∧
    (((stopSession 1500 sampleState).2).currentSession.map
        (fun s => (s.finalScore, s.grade))) =
      ((stopSession 1500 sampleState).1.map
        (fun s => (s.finalScore, s.grade))) :=
  stop_twice_noop_returns_null sampleState _ 500 1500 2500 rfl rfl (by norm_num)

/-- C8: stopping a session whose stored metrics sequence is empty yields
final score 0 and grade F (the early return for an empty list avoids any
division by zero). -/
theorem empty_session_scores_zero
    (st : SimState) (sess : WeldingSession) (t0 now : ℚ)
    (h1 : st.currentSession = some sess)
    (h2 : st.sessionStartTime = some t0)
    (h3 : t0 ≠ 0)
    (h4 : sess.metrics = []) :
    ((stopSession now st).1.map (fun s => (s.finalScore, s.grade))) =
      some (0, Grade.F) := by
  simp only [stopSession, h1, h2, if_neg h3, Option.map_some']
  norm_num [calculateFinalScore, h4, getGrade]

/-- C8 witness: the theorem applied to the empty-metrics fixture. -/
theorem empty_session_scores_zero_witness :
    ((stopSession 1500 emptyMetricsState).1.map
      (fun s => (s.finalScore, s.grade))) = some (0, Grade.F) :=
  empty_session_scores_zero emptyMetricsState _ 500 1500 rfl rfl
    (by norm_num) rfl

/-!
## Certificate validation codes (certificateUtils.ts)

Strings are embedded as `List Char`; `charCodeAt` is `Char.toNat`.  The
date code (`new Date().toISOString()...`) and the random suffix
(`Math.random().toString(36)...`) are environmental and passed in as
arguments.
-/

/-- JavaScript `ToInt32`: wrap an integer into `[-2^31, 2^31)`. -/
def toInt32 (n : ℤ) : ℤ :=
  (n + 2 ^ 31) % 2 ^ 32 - 2 ^ 31

/-- `simpleHash` (certificateUtils.ts): `hash = ((hash << 5) - hash) + char`
with 32-bit wrap-around (`hash & hash`), then `Math.abs`.  The `<< 5` shift
itself operates on 32-bit integers, hence the inner `toInt32`. -/
def simpleHash (str : List Char) : ℕ :=
  (str.foldl (fun hash c => toInt32 (toInt32 (hash * 32) - hash + c.toNat)) 0).natAbs

/-- Base-36 digit as an uppercase character (`toString(36).toUpperCase()`
collapsed into one step: JS produces lowercase digits first). -/
def digitChar36 (d : ℕ) : Char :=
  if d < 10 then Char.ofNat (48 + d) else Char.ofNat (55 + d)

/-- Fuel-indexed base-36 digit expansion (most significant digit first).
The fuel `n + 1` always suffices since the recursion divides by 36. -/
def toBase36Aux : ℕ → ℕ → List Char
  | 0, _ => []
  | fuel + 1, n =>
    if n < 36 then [digitChar36 n]
    else toBase36Aux fuel (n / 36) ++ [digitChar36 (n % 36)]

/-- `n.toString(36).toUpperCase()` for a natural number. -/
def toBase36 (n : ℕ) : List Char :=
  toBase36Aux (n + 1) n

/-- The user-hash component: `simpleHash(userName).toString(36)
.substring(0, 4).toUpperCase()`. -/
def userHashCode (userName : List Char) : List Char :=
  (toBase36 (simpleHash userName)).take 4

/-- `getTechniqueCode` (certificateUtils.ts): `'U'` for unknown. -/
def getTechniqueCode (technique : List Char) : Char :=
  if technique = "MIG".toList then 'M'
  else if technique = "TIG".toList then 'T'
  else if technique = "ELECTRODO".toList then 'E'
  else 'U'

/-- `getScoreCode` (certificateUtils.ts): note `"A+"` has two characters. -/
def getScoreCode (score : ℚ) : List Char :=
  if score ≥ 95 then ['A', '+']
  else if score ≥ 90 then ['A']
  else if score ≥ 80 then ['B']
  else if score ≥ 70 then ['C']
  else if score ≥ 60 then ['D']
  else ['F']

/-- `generateValidationCode` (certificateUtils.ts):
`WELD-${userHash}${techCode}${scoreCode}-${dateCode}-${randomCode}`. -/
def generateValidationCode (userName technique : List Char) (score : ℚ)
    (dateCode randomCode : List Char) : List Char :=
  "WELD".toList ++
    '-' :: (userHashCode userName ++
            getTechniqueCode technique :: getScoreCode score) ++
    '-' :: dateCode ++
    '-' :: randomCode

/-- Membership in the regex class `[A-Z0-9]`. -/
def isUpperAlnum (c : Char) : Bool :=
  ('A' ≤ c && c ≤ 'Z') || ('0' ≤ c && c ≤ '9')

/-- Membership in the regex class `[0-9]`. -/
def isDigitChar (c : Char) : Bool :=
  '0' ≤ c && c ≤ '9'

/-- `String.prototype.split('-')` on a character list. -/
def splitOnDash : List Char → List (List Char)
  | [] => [[]]
  | c :: rest =>
    if c = '-' then [] :: splitOnDash rest
    else
      match splitOnDash rest with
      | [] => [[c]]
      | p :: ps => (c :: p) :: ps

/-- `validateCertificateCode` (certificateUtils.ts): the regex
`^WELD-[A-Z0-9]{6}-[0-9]{8}-[A-Z0-9]{4}$`.  Since `-` is excluded from every
character class, a string matches iff splitting on `-` yields exactly the
four constrained components. -/
def validateCertificateCode (code : List Char) : Bool :=
  match splitOnDash code with
  | [a, b, c, d] =>
    a == "WELD".toList &&
    b.length == 6 && b.all isUpperAlnum &&
    c.length == 8 && c.all isDigitChar &&
    d.length == 4 && d.all isUpperAlnum
  | _ => false

/-- `getTechniqueFromCode` (certificateUtils.ts). -/
def getTechniqueFromCode (code : Char) : List Char :=
  if code = 'M' then "MIG".toList
  else if code = 'T' then "TIG".toList
  else if code = 'E' then "ELECTRODO".toList
  else "UNKNOWN".toList

/-- `getScoreFromCode` (certificateUtils.ts): midpoint of the declared score
bucket, 0 for an unknown code. -/
def getScoreFromCode (code : List Char) : ℚ :=
  if code = ['A', '+'] then (95 + 100) / 2
  else if code = ['A'] then (90 + 94) / 2
  else if code = ['B'] then (80 + 89) / 2
  else if code = ['C'] then (70 + 79) / 2
  else if code = ['D'] then (60 + 69) / 2
  else if code = ['F'] then (0 + 59) / 2
  else 0

/-- Decimal value of a digit string (`parseInt` on the already
digit-checked date components). -/
def digitsVal (l : List Char) : ℕ :=
  l.foldl (fun acc c => 10 * acc + (c.toNat - 48)) 0

/-- `parseDateCode` (certificateUtils.ts): `new Date(year, month - 1, day)`
represented as the triple of constructor arguments. -/
def parseDateCode (dateCode : List Char) : ℤ × ℤ × ℤ :=
  (digitsVal (dateCode.take 4),
   (digitsVal ((dateCode.drop 4).take 2) : ℤ) - 1,
   digitsVal ((dateCode.drop 6).take 2))

/-- The record returned by `parseValidationCode` (sans the constant
`isValid: true` field). -/
structure ParsedValidationCode where
  userHash : List Char
  technique : List Char
  scoreCode : List Char
  score : ℚ
  date : ℤ × ℤ × ℤ
  randomCode : List Char
  deriving DecidableEq, Repr

/-- `parseValidationCode` (certificateUtils.ts): `null` when the regex
rejects; otherwise split on `-` and extract `substring(0,4)`, `charAt(4)`,
`substring(5,7)` from the middle component. -/
def parseValidationCode (code : List Char) : Option ParsedValidationCode :=
  if validateCertificateCode code then
    match splitOnDash code with
    | [_, b, c, d] =>
      match b.drop 4 with
      | tc :: _ =>
        some { userHash := b.take 4
               technique := getTechniqueFromCode tc
               scoreCode := (b.drop 5).take 2
               score := getScoreFromCode ((b.drop 5).take 2)
               date := parseDateCode c
               randomCode := d }
      | [] => none
    | _ => none
  else none

/-- Spec-side: the declared score bucket (min, max) that `getScoreCode`
assigns to a score. -/
def scoreBucket (score : ℚ) : ℚ × ℚ :=
  if score ≥ 95 then (95, 100)
  else if score ≥ 90 then (90, 94)
  else if score ≥ 80 then (80, 89)
  else if score ≥ 70 then (70, 79)
  else if score ≥ 60 then (60, 69)
  else (0, 59)

theorem splitOnDash_of_forall_ne (l : List Char) (h : ∀ c ∈ l, c ≠ '-') :
    splitOnDash l = [l] := by
  induction l with
  | nil => rfl
  | cons c rest ih =>
    have hc : c ≠ '-' := h c (List.mem_cons_self c rest)
    have hr := ih (fun x hx => h x (List.mem_cons_of_mem c hx))
    simp [splitOnDash, hc, hr]

theorem splitOnDash_append (a rest : List Char) (h : ∀ c ∈ a, c ≠ '-') :
    splitOnDash (a ++ '-' :: rest) = a :: splitOnDash rest := by
  induction a with
  | nil => simp [splitOnDash]
  | cons c t ih =>
    have hc : c ≠ '-' := h c (List.mem_cons_self c t)
    have ht := ih (fun x hx => h x (List.mem_cons_of_mem c hx))
    simp [splitOnDash, hc, ht]

theorem digitChar36_upperAlnum (d : ℕ) (h : d < 36) :
    isUpperAlnum (digitChar36 d) = true := by
  interval_cases d <;> decide

theorem toBase36Aux_all_upperAlnum (fuel n : ℕ) :
    (toBase36Aux fuel n).all isUpperAlnum = true := by
  induction fuel generalizing n with
  | zero => rfl
  | succ fuel ih =>
    by_cases h : n < 36
    · simp [toBase36Aux, h, digitChar36_upperAlnum n h]
    · simp [toBase36Aux, h, List.all_append, ih,
        digitChar36_upperAlnum (n % 36) (Nat.mod_lt n (by norm_num))]

theorem userHashCode_all_upperAlnum (userName : List Char) :
    (userHashCode userName).all isUpperAlnum = true := by
  have h := toBase36Aux_all_upperAlnum (simpleHash userName + 1) (simpleHash userName)
  rw [List.all_eq_true] at h ⊢
  exact fun c hc => h c (List.take_subset 4 _ hc)

theorem upperAlnum_ne_dash (c : Char) (h : isUpperAlnum c = true) :
    c ≠ '-' := by
  intro hEq
  subst hEq
  exact absurd h (by decide)

theorem digitChar_ne_dash (c : Char) (h : isDigitChar c = true) :
    c ≠ '-' := by
  intro hEq
  subst hEq
  exact absurd h (by decide)

/-- Parsing an assembled code whose middle block is a 4-character
alphanumeric user hash, an alphanumeric technique character and a single
alphanumeric score character succeeds and splits the block back apart. -/
theorem parseValidationCode_assembled
    (uh sc dateCode randomCode : List Char) (tc : Char)
    (huhLen : uh.length = 4) (huhAll : uh.all isUpperAlnum = true)
    (htc : isUpperAlnum tc = true)
    (hscLen : sc.length = 1) (hscAll : sc.all isUpperAlnum = true)
    (hdLen : dateCode.length = 8) (hdAll : dateCode.all isDigitChar = true)
    (hrLen : randomCode.length = 4) (hrAll : randomCode.all isUpperAlnum = true) :
    parseValidationCode
      ("WELD".toList ++ '-' :: (uh ++ tc :: sc) ++
        '-' :: dateCode ++ '-' :: randomCode) =
      some { userHash := uh
             technique := getTechniqueFromCode tc
             scoreCode := sc
             score := getScoreFromCode sc
             date := parseDateCode dateCode
             randomCode := randomCode } := by
  have hMidAll : (uh ++ tc :: sc).all isUpperAlnum = true := by
    simp [List.all_append, huhAll, htc, hscAll]
  have hMidNe : ∀ c ∈ uh ++ tc :: sc, c ≠ '-' := by
    intro c hc
    exact upperAlnum_ne_dash c ((List.all_eq_true.mp hMidAll) c hc)
  have hDateNe : ∀ c ∈ dateCode, c ≠ '-' := by
    intro c hc
    exact digitChar_ne_dash c ((List.all_eq_true.mp hdAll) c hc)
  have hRandNe : ∀ c ∈ randomCode, c ≠ '-' := by
    intro c hc
    exact upperAlnum_ne_dash c ((List.all_eq_true.mp hrAll) c hc)
  have hW : ∀ c ∈ "WELD".toList, c ≠ '-' := by decide
  have hsplit :
      splitOnDash
        ("WELD".toList ++ '-' :: (uh ++ tc :: sc) ++
          '-' :: dateCode ++ '-' :: randomCode) =
        ["WELD".toList, uh ++ tc :: sc, dateCode, randomCode] := by
    have e1 :
        ("WELD".toList ++ '-' :: (uh ++ tc :: sc) ++
          '-' :: dateCode ++ '-' :: randomCode) =
        "WELD".toList ++
          '-' :: ((uh ++ tc :: sc) ++
            '-' :: (dateCode ++ '-' :: randomCode)) := by
      simp
    rw [e1, splitOnDash_append _ _ hW, splitOnDash_append _ _ hMidNe,
        splitOnDash_append _ _ hDateNe, splitOnDash_of_forall_ne _ hRandNe]
  have hMidLen : (uh ++ tc :: sc).length = 6 := by
    simp [huhLen, hscLen]
  have hvalid :
      validateCertificateCode
        ("WELD".toList ++ '-' :: (uh ++ tc :: sc) ++
          '-' :: dateCode ++ '-' :: randomCode) = true := by
    unfold validateCertificateCode
    rw [hsplit]
    simp [hMidLen, hMidAll, hdLen, hdAll, hrLen, hrAll]
  have hdrop4 : (uh ++ tc :: sc).drop 4 = tc :: sc := by
    have := List.drop_left uh (tc :: sc)
    rwa [huhLen] at this
  have hdrop5 : (uh ++ tc :: sc).drop 5 = sc := by
    have e2 : uh ++ tc :: sc = (uh ++ [tc]) ++ sc := by simp
    have e3 : (uh ++ [tc]).length = 5 := by simp [huhLen]
    rw [e2]
    have := List.drop_left (uh ++ [tc]) sc
    rwa [e3] at this
  have htake4 : (uh ++ tc :: sc).take 4 = uh := by
    have := List.take_left uh (tc :: sc)
    rwa [huhLen] at this
  have htake2 : sc.take 2 = sc :=
    List.take_of_length_le (by rw [hscLen]; norm_num)
  unfold parseValidationCode
  rw [hvalid, hsplit]
  simp [hdrop4, hdrop5, htake4, htake2]

/-- C3 counterexample: for user "ABCD" (whose hash code "16WQ" is fine),
technique MIG and score 95, the generated code has a seven-character middle
block containing `+` (score code "A+"), so the validation regex rejects it
and parsing returns `null` instead of recovering technique and score. -/
theorem validation_roundtrip_counterexample :
    parseValidationCode
      (generateValidationCode "ABCD".toList "MIG".toList 95
        "20261011".toList "QRST".toList) = none := by
  decide

/-- C3 (amended): for every user name whose 4-character base-36 hash code is
full length, every technique in {MIG, TIG, ELECTRODO}, and every score in
[0, 95) — scores ≥ 95 produce the two-character "A+" code that the
validation regex rejects — parsing the generated code succeeds, recovers the
technique exactly, and yields a score within the declared bucket of the
input score (given well-formed 8-digit date and 4-character alphanumeric
random components). -/
theorem validation_roundtrip
    (userName technique : List Char) (score : ℚ)
    (dateCode randomCode : List Char)
    (htech : technique = "MIG".toList ∨ technique = "TIG".toList ∨
      technique = "ELECTRODO".toList)
    (hhash : (userHashCode userName).length = 4)
    (h0 : 0 ≤ score) (h95 : score < 95)
    (hdLen : dateCode.length = 8) (hdAll : dateCode.all isDigitChar = true)
    (hrLen : randomCode.length = 4) (hrAll : randomCode.all isUpperAlnum = true) :
    ∃ r, parseValidationCode
        (generateValidationCode userName technique score dateCode randomCode) =
        some r ∧
      r.technique = technique ∧
      (scoreBucket score).1 ≤ r.score ∧ r.score ≤ (scoreBucket score).2 := by
  have hn95 : ¬ (score ≥ 95) := not_le.mpr h95
  have htcAl : isUpperAlnum (getTechniqueCode technique) = true := by
    rcases htech with h | h | h <;> subst h <;> decide
  have htcBack : getTechniqueFromCode (getTechniqueCode technique) = technique := by
    rcases htech with h | h | h <;> subst h <;> decide
  have hscoreCases :
      (getScoreCode score = ['A'] ∧ scoreBucket score = (90, 94) ∧
        getScoreFromCode ['A'] = 92) ∨
      (getScoreCode score = ['B'] ∧ scoreBucket score = (80, 89) ∧
        getScoreFromCode ['B'] = (169 : ℚ) / 2) ∨
      (getScoreCode score = ['C'] ∧ scoreBucket score = (70, 79) ∧
        getScoreFromCode ['C'] = (149 : ℚ) / 2) ∨
      (getScoreCode score = ['D'] ∧ scoreBucket score = (60, 69) ∧
        getScoreFromCode ['D'] = (129 : ℚ) / 2) ∨
      (getScoreCode score = ['F'] ∧ scoreBucket score = (0, 59) ∧
        getScoreFromCode ['F'] = (59 : ℚ) / 2) := by
    have eA : getScoreFromCode ['A'] = 92 := by
      norm_num [getScoreFromCode,
        show (['A'] : List Char) ≠ ['A', '+'] from by decide]
    have eB : getScoreFromCode ['B'] = (169 : ℚ) / 2 := by
      norm_num [getScoreFromCode,
        show (['B'] : List Char) ≠ ['A', '+'] from by decide,
        show (['B'] : List Char) ≠ ['A'] from by decide]
    have eC : getScoreFromCode ['C'] = (149 : ℚ) / 2 := by
      norm_num [getScoreFromCode,
        show (['C'] : List Char) ≠ ['A', '+'] from by decide,
        show (['C'] : List Char) ≠ ['A'] from by decide,
        show (['C'] : List Char) ≠ ['B'] from by decide]
    have eD : getScoreFromCode ['D'] = (129 : ℚ) / 2 := by
      norm_num [getScoreFromCode,
        show (['D'] : List Char) ≠ ['A', '+'] from by decide,
        show (['D'] : List Char) ≠ ['A'] from by decide,
        show (['D'] : List Char) ≠ ['B'] from by decide,
        show (['D'] : List Char) ≠ ['C'] from by decide]
    have eF : getScoreFromCode ['F'] = (59 : ℚ) / 2 := by
      norm_num [getScoreFromCode,
        show (['F'] : List Char) ≠ ['A', '+'] from by decide,
        show (['F'] : List Char) ≠ ['A'] from by decide,
        show (['F'] : List Char) ≠ ['B'] from by decide,
        show (['F'] : List Char) ≠ ['C'] from by decide,
        show (['F'] : List Char) ≠ ['D'] from by decide]
    by_cases h90 : score ≥ 90
    · exact Or.inl ⟨by simp [getScoreCode, hn95, h90],
        by simp [scoreBucket, hn95, h90], eA⟩
    by_cases h80 : score ≥ 80
    · exact Or.inr (Or.inl ⟨by simp [getScoreCode, hn95, h90, h80],
        by simp [scoreBucket, hn95, h90, h80], eB⟩)
    by_cases h70 : score ≥ 70
    · exact Or.inr (Or.inr (Or.inl ⟨by simp [getScoreCode, hn95, h90, h80, h70],
        by simp [scoreBucket, hn95, h90, h80, h70], eC⟩))
    by_cases h60 : score ≥ 60
    · exact Or.inr (Or.inr (Or.inr (Or.inl
        ⟨by simp [getScoreCode, hn95, h90, h80, h70, h60],
         by simp [scoreBucket, hn95, h90, h80, h70, h60], eD⟩)))
    · exact Or.inr (Or.inr (Or.inr (Or.inr
        ⟨by simp [getScoreCode, hn95, h90, h80, h70, h60],
         by simp [scoreBucket, hn95, h90, h80, h70, h60], eF⟩)))
  have huhAll := userHashCode_all_upperAlnum userName
  rcases hscoreCases with ⟨hsc, hbk, hval⟩ | ⟨hsc, hbk, hval⟩ |
    ⟨hsc, hbk, hval⟩ | ⟨hsc, hbk, hval⟩ | ⟨hsc, hbk, hval⟩ <;>
    simp only [generateValidationCode, hsc] <;>
    exact ⟨_,
      parseValidationCode_assembled (userHashCode userName) _ dateCode
        randomCode (getTechniqueCode technique) hhash huhAll htcAl
        (by decide) (by decide) hdLen hdAll hrLen hrAll,
      by simp [htcBack],
      by norm_num [hbk, hval],
      by norm_num [hbk, hval]⟩

/-- C3 witness: the amended round-trip theorem applied at user "ABCD",
technique MIG, score 92. -/
theorem validation_roundtrip_witness :
    ∃ r, parseValidationCode
        (generateValidationCode "ABCD".toList "MIG".toList 92
          "20261011".toList "QRST".toList) = some r ∧
      r.technique = "MIG".toList ∧
      (scoreBucket 92).1 ≤ r.score ∧ r.score ≤ (scoreBucket 92).2 :=
  validation_roundtrip "ABCD".toList "MIG".toList 92 "20261011".toList
    "QRST".toList (Or.inl rfl) (by decide) (by norm_num) (by norm_num)
    (by decide) (by decide) (by decide) (by decide)

/-!
## Metric scorers with rolling windows (weldingCalculations.ts)

These use `Math.sqrt`, so they are embedded over `ℝ` with `Real.sqrt`.
-/

/-- A `{ min, max }` ideal range over `ℝ`. -/
structure RIdealRange where
  min : ℝ
  max : ℝ

/-- `evaluateAngleAccuracy` (weldingCalculations.ts): identical in structure
to `calculateAngleScore` of useSensors.ts. -/
noncomputable def evaluateAngleAccuracy (angle : ℝ) (idealRange : RIdealRange) : ℝ :=
  if angle ≥ idealRange.min ∧ angle ≤ idealRange.max then 100
  else
    let deviation := min |angle - idealRange.min| |angle - idealRange.max|
    max 0 (100 - deviation * 2)

/-- `evaluateDistanceStability` (weldingCalculations.ts): hard zero when the
current sample is out of range, 100 on an empty window, otherwise
`max(0, 100 - stdDev * 20)` over the rolling window. -/
noncomputable def evaluateDistanceStability (currentDistance : ℝ)
    (previousDistances : List ℝ) (idealRange : RIdealRange) : ℝ :=
  if currentDistance < idealRange.min ∨ currentDistance > idealRange.max then 0
  else if previousDistances.length = 0 then 100
  else
    let avgDistance := previousDistances.sum / (previousDistances.length : ℝ)
    let variance :=
      (previousDistances.map (fun d => (d - avgDistance) ^ 2)).sum /
        (previousDistances.length : ℝ)
    let standardDeviation := Real.sqrt variance
    max 0 (100 - standardDeviation * 20)

/-- Spec-side: standard deviation of a window (square root of the mean
squared deviation from the window mean). -/
noncomputable def windowStdDev (window : List ℝ) : ℝ :=
  Real.sqrt
    ((window.map
        (fun d => (d - window.sum / (window.length : ℝ)) ^ 2)).sum /
      (window.length : ℝ))

/-- Spec-side: distance from a value to the nearest bound of a range. -/
noncomputable def nearestBoundDistR (a : ℝ) (r : RIdealRange) : ℝ :=
  min |a - r.min| |a - r.max|

/-- Spec-side: distance to nearest bound, rational version. -/
def nearestBoundDistQ (a : ℚ) (r : IdealRange) : ℚ :=
  min |a - r.min| |a - r.max|

/-- C4: the distance-stability score is exactly 0 whenever the current
distance is outside the ideal range; within range it is 100 minus 20 points
per unit of the standard deviation of the rolling window (100 when the
window is empty), floored at 0. -/
theorem distance_stability_spec (d : ℝ) (prev : List ℝ) (r : RIdealRange) :
    evaluateDistanceStability d prev r =
      if d < r.min ∨ r.max < d then 0
      else if prev = [] then 100
      else max 0 (100 - 20 * windowStdDev prev) := by
  unfold evaluateDistanceStability windowStdDev
  by_cases h1 : d < r.min ∨ d > r.max
  · simp [h1]
  · simp [h1, List.length_eq_zero, mul_comm]

/-- C5: for every range with min ≤ max, the angle score (in both its
implementations, `evaluateAngleAccuracy` of weldingCalculations.ts over ℝ
and `calculateAngleScore` of useSensors.ts over ℚ) is exactly 100 inside
the range, equals `max 0 (100 - 2·deviation)` outside it, is monotonically
non-increasing in the deviation for out-of-range values, and always lies in
[0, 100]. -/
theorem angle_score_spec (r : RIdealRange) (hr : r.min ≤ r.max)
    (q : IdealRange) (hq : q.min ≤ q.max) :
    (∀ a : ℝ, r.min ≤ a ∧ a ≤ r.max → evaluateAngleAccuracy a r = 100) ∧
    (∀ a : ℝ, ¬(r.min ≤ a ∧ a ≤ r.max) →
      evaluateAngleAccuracy a r = max 0 (100 - 2 * nearestBoundDistR a r)) ∧
    (∀ a b : ℝ, ¬(r.min ≤ a ∧ a ≤ r.max) → ¬(r.min ≤ b ∧ b ≤ r.max) →
      nearestBoundDistR a r ≤ nearestBoundDistR b r →
      evaluateAngleAccuracy b r ≤ evaluateAngleAccuracy a r) ∧
    (∀ a : ℝ, 0 ≤ evaluateAngleAccuracy a r ∧ evaluateAngleAccuracy a r ≤ 100) ∧
    (∀ a : ℚ, q.min ≤ a ∧ a ≤ q.max → calculateAngleScore a q = 100) ∧
    (∀ a : ℚ, ¬(q.min ≤ a ∧ a ≤ q.max) →
      calculateAngleScore a q = max 0 (100 - 2 * nearestBoundDistQ a q)) ∧
    (∀ a b : ℚ, ¬(q.min ≤ a ∧ a ≤ q.max) → ¬(q.min ≤ b ∧ b ≤ q.max) →
      nearestBoundDistQ a q ≤ nearestBoundDistQ b q →
      calculateAngleScore b q ≤ calculateAngleScore a q) ∧
    (∀ a : ℚ, 0 ≤ calculateAngleScore a q ∧ calculateAngleScore a q ≤ 100) := by
  have hdevR : ∀ a : ℝ, 0 ≤ nearestBoundDistR a r := by
    intro a
    exact le_min (abs_nonneg _) (abs_nonneg _)
  have hdevQ : ∀ a : ℚ, 0 ≤ nearestBoundDistQ a q := by
    intro a
    exact le_min (abs_nonneg _) (abs_nonneg _)
  refine ⟨?_, ?_, ?_, ?_, ?_, ?_, ?_, ?_⟩
  · intro a h
    simp [evaluateAngleAccuracy, h.1, h.2]
  · intro a h
    simp only [evaluateAngleAccuracy, ge_iff_le, if_neg h, nearestBoundDistR]
    ring_nf
  · intro a b ha hb hd
    simp only [evaluateAngleAccuracy, ge_iff_le, if_neg ha, if_neg hb]
    apply max_le_max le_rfl
    have := hd
    simp only [nearestBoundDistR] at this
    linarith
  · intro a
    by_cases h : r.min ≤ a ∧ a ≤ r.max
    · simp [evaluateAngleAccuracy, h.1, h.2]
    · simp only [evaluateAngleAccuracy, ge_iff_le, if_neg h]
      constructor
      · exact le_max_left 0 _
      · apply max_le (by norm_num)
        have := hdevR a
        simp only [nearestBoundDistR] at this
        linarith
  · intro a h
    simp [calculateAngleScore, h.1, h.2]
  · intro a h
    simp only [calculateAngleScore, ge_iff_le, if_neg h, nearestBoundDistQ]
    ring_nf
  · intro a b ha hb hd
    simp only [calculateAngleScore, ge_iff_le, if_neg ha, if_neg hb]
    apply max_le_max le_rfl
    have := hd
    simp only [nearestBoundDistQ] at this
    linarith
  · intro a
    by_cases h : q.min ≤ a ∧ a ≤ q.max
    · simp [calculateAngleScore, h.1, h.2]
    · simp only [calculateAngleScore, ge_iff_le, if_neg h]
      constructor
      · exact le_max_left 0 _
      · apply max_le (by norm_num)
        have := hdevQ a
        simp only [nearestBoundDistQ] at this
        linarith

/-- C5 witness: the angle-score theorem applied to the MIG range 70–80. -/
theorem angle_score_spec_witness :
    (∀ a : ℝ, (70:ℝ) ≤ a ∧ a ≤ 80 →
      evaluateAngleAccuracy a ⟨70, 80⟩ = 100) ∧
    (∀ a : ℝ, ¬((70:ℝ) ≤ a ∧ a ≤ 80) →
      evaluateAngleAccuracy a ⟨70, 80⟩ =
        max 0 (100 - 2 * nearestBoundDistR a ⟨70, 80⟩)) ∧
    (∀ a b : ℝ, ¬((70:ℝ) ≤ a ∧ a ≤ 80) → ¬((70:ℝ) ≤ b ∧ b ≤ 80) →
      nearestBoundDistR a ⟨70, 80⟩ ≤ nearestBoundDistR b ⟨70, 80⟩ →
      evaluateAngleAccuracy b ⟨70, 80⟩ ≤ evaluateAngleAccuracy a ⟨70, 80⟩) ∧
    (∀ a : ℝ, 0 ≤ evaluateAngleAccuracy a ⟨70, 80⟩ ∧
      evaluateAngleAccuracy a ⟨70, 80⟩ ≤ 100) ∧
    (∀ a : ℚ, (70:ℚ) ≤ a ∧ a ≤ 80 → calculateAngleScore a ⟨70, 80⟩ = 100) ∧
    (∀ a : ℚ, ¬((70:ℚ) ≤ a ∧ a ≤ 80) →
      calculateAngleScore a ⟨70, 80⟩ =
        max 0 (100 - 2 * nearestBoundDistQ a ⟨70, 80⟩)) ∧
    (∀ a b : ℚ, ¬((70:ℚ) ≤ a ∧ a ≤ 80) → ¬((70:ℚ) ≤ b ∧ b ≤ 80) →
      nearestBoundDistQ a ⟨70, 80⟩ ≤ nearestBoundDistQ b ⟨70, 80⟩ →
      calculateAngleScore b ⟨70, 80⟩ ≤ calculateAngleScore a ⟨70, 80⟩) ∧
    (∀ a : ℚ, 0 ≤ calculateAngleScore a ⟨70, 80⟩ ∧
      calculateAngleScore a ⟨70, 80⟩ ≤ 100) :=
  angle_score_spec ⟨70, 80⟩ (by norm_num) ⟨70, 80⟩ (by norm_num)

/-!
## Pattern recognition (patternRecognition.ts)

Geometry uses `Math.sqrt`, hence `ℝ`.  Pixel data is integral and modelled
over `ℕ`/`ℚ` so that the corner-detection stage stays decidable.
-/

/-- `MarkerCorner` — a 2-D point, also used for pattern centers. -/
structure MarkerCorner where
  x : ℝ
  y : ℝ

/-- `DetectedPattern` (patternRecognition.ts). -/
structure DetectedPattern where
  corners : List MarkerCorner
  center : MarkerCorner
  size : ℝ
  confidence : ℝ
  timestamp : ℝ

/-- `trackPatternMovement` (patternRecognition.ts): with both a previous and
a current pattern, snap to the current pattern when the centroid moved more
than 50px, otherwise exponentially smooth only the center with factor 0.3;
with either list empty, return `currentPatterns[0] || null`. -/
noncomputable def trackPatternMovement
    (previousPatterns currentPatterns : List DetectedPattern) :
    Option DetectedPattern :=
  match previousPatterns, currentPatterns with
  | prevPattern :: _, currPattern :: _ =>
    let dx := currPattern.center.x - prevPattern.center.x
    let dy := currPattern.center.y - prevPattern.center.y
    let movement := Real.sqrt (dx * dx + dy * dy)
    if movement > 50 then some currPattern
    else
      some { currPattern with
        center :=
          ⟨prevPattern.center.x +
              (currPattern.center.x - prevPattern.center.x) * 0.3,
            prevPattern.center.y +
              (currPattern.center.y - prevPattern.center.y) * 0.3⟩ }
  | _, _ => currentPatterns.head?

/-- C6 counterexample: at a centroid movement of exactly 50px (prev center
(0,0), candidate center (50,0)) the code still smooths — the output center
is (15,0), not the candidate's (50,0) — although the candidate has *not*
moved less than 50px, where the claim demands an unsmoothed candidate. -/
theorem track_pattern_boundary_counterexample :
    ¬ (Real.sqrt (((50:ℝ) - 0) * ((50:ℝ) - 0) + ((0:ℝ) - 0) * ((0:ℝ) - 0)) < 50) ∧
    trackPatternMovement
        [(⟨[], ⟨0, 0⟩, 10, 1, 0⟩ : DetectedPattern)]
        [(⟨[], ⟨50, 0⟩, 10, 1, 0⟩ : DetectedPattern)] =
      some (⟨[], ⟨15, 0⟩, 10, 1, 0⟩ : DetectedPattern) ∧
    trackPatternMovement
        [(⟨[], ⟨0, 0⟩, 10, 1, 0⟩ : DetectedPattern)]
        [(⟨[], ⟨50, 0⟩, 10, 1, 0⟩ : DetectedPattern)] ≠
      some (⟨[], ⟨50, 0⟩, 10, 1, 0⟩ : DetectedPattern) := by
  have harg : ((50:ℝ) - 0) * ((50:ℝ) - 0) + ((0:ℝ) - 0) * ((0:ℝ) - 0) = 50 ^ 2 := by
    norm_num
  have hsqrt : Real.sqrt (((50:ℝ) - 0) * ((50:ℝ) - 0) + ((0:ℝ) - 0) * ((0:ℝ) - 0)) = 50 := by
    rw [harg, Real.sqrt_sq (by norm_num : (0:ℝ) ≤ 50)]
  refine ⟨by rw [hsqrt]; norm_num, ?_, ?_⟩
  · show (if Real.sqrt _ > 50 then _ else _) = _
    rw [if_neg (by rw [hsqrt]; norm_num)]
    norm_num
  · show (if Real.sqrt _ > 50 then _ else _) ≠ _
    rw [if_neg (by rw [hsqrt]; norm_num)]
    intro h
    simp only [Option.some.injEq, DetectedPattern.mk.injEq,
      MarkerCorner.mk.injEq] at h
    norm_num at h

/-- C6 (amended): given a prior tracked pattern and a current candidate, the
tracker smooths the centroid with factor 0.3 whenever the movement is at
most 50px (leaving size, confidence, corners and timestamp untouched), and
returns the candidate entirely unsmoothed whenever the movement exceeds
50px.  (The claim's strict "less than 50px" boundary is wrong: at exactly
50px the code smooths.) -/
theorem track_pattern_smoothing (prev curr : DetectedPattern)
    (rest1 rest2 : List DetectedPattern) :
    (Real.sqrt ((curr.center.x - prev.center.x) * (curr.center.x - prev.center.x) +
        (curr.center.y - prev.center.y) * (curr.center.y - prev.center.y)) ≤ 50 →
      trackPatternMovement (prev :: rest1) (curr :: rest2) =
        some { curr with
          center :=
            ⟨prev.center.x + (curr.center.x - prev.center.x) * 0.3,
              prev.center.y + (curr.center.y - prev.center.y) * 0.3⟩ }) ∧
    (50 < Real.sqrt ((curr.center.x - prev.center.x) * (curr.center.x - prev.center.x) +
        (curr.center.y - prev.center.y) * (curr.center.y - prev.center.y)) →
      trackPatternMovement (prev :: rest1) (curr :: rest2) = some curr) := by
  constructor
  · intro h
    show (if _ > 50 then _ else _) = _
    rw [if_neg (not_lt.mpr h)]
  · intro h
    show (if _ > 50 then _ else _) = _
    rw [if_pos h]

/-- C6 witness: the amended theorem applied to a prior at (0,0) and a
candidate at (3,4), movement 5 ≤ 50, smoothed center (0.9, 1.2). -/
theorem track_pattern_smoothing_witness :
    trackPatternMovement
        [(⟨[], ⟨0, 0⟩, 10, 1, 0⟩ : DetectedPattern)]
        [(⟨[], ⟨3, 4⟩, 9, 1, 7⟩ : DetectedPattern)] =
      some (⟨[], ⟨0 + (3 - 0) * 0.3, 0 + (4 - 0) * 0.3⟩, 9, 1, 7⟩ : DetectedPattern) :=
  (track_pattern_smoothing ⟨[], ⟨0, 0⟩, 10, 1, 0⟩ ⟨[], ⟨3, 4⟩, 9, 1, 7⟩ [] []).1
    (by
      have harg : ((3:ℝ) - 0) * ((3:ℝ) - 0) + ((4:ℝ) - 0) * ((4:ℝ) - 0) = 5 ^ 2 := by
        norm_num
      rw [show ((⟨[], ⟨3, 4⟩, 9, 1, 7⟩ : DetectedPattern).center.x -
          (⟨[], ⟨0, 0⟩, 10, 1, 0⟩ : DetectedPattern).center.x) *
          ((⟨[], ⟨3, 4⟩, 9, 1, 7⟩ : DetectedPattern).center.x -
          (⟨[], ⟨0, 0⟩, 10, 1, 0⟩ : DetectedPattern).center.x) +
          ((⟨[], ⟨3, 4⟩, 9, 1, 7⟩ : DetectedPattern).center.y -
          (⟨[], ⟨0, 0⟩, 10, 1, 0⟩ : DetectedPattern).center.y) *
          ((⟨[], ⟨3, 4⟩, 9, 1, 7⟩ : DetectedPattern).center.y -
          (⟨[], ⟨0, 0⟩, 10, 1, 0⟩ : DetectedPattern).center.y) = 5 ^ 2 from by norm_num,
        Real.sqrt_sq (by norm_num : (0:ℝ) ≤ 5)]
      norm_num)

/-- `Math.round` on an exact rational: floor of `q + 1/2`. -/
def jsRound (q : ℚ) : ℤ := ⌊q + 1 / 2⌋

/-- The grayscale conversion of `detectSquarePatterns`: the RGBA byte array
is an index function (entry `i` meaningful for `i < 4·width·height`), and
`grayData[i/4] = round(0.299 R + 0.587 G + 0.114 B)`, stored into a
`Uint8ClampedArray` (hence the clamp to 255; the rounded value of
non-negative bytes is never negative). -/
def grayscale (data : ℕ → ℕ) : ℕ → ℕ :=
  fun i =>
    Nat.min 255
      ((jsRound ((0.299 : ℚ) * data (4 * i) + (0.587 : ℚ) * data (4 * i + 1) +
        (0.114 : ℚ) * data (4 * i + 2))).toNat)

/-- The eight `(ky, kx)` kernel offsets of `findCornerPoints`, in loop
order, with the center excluded. -/
def neighborOffsets : List (ℤ × ℤ) :=
  [(-1, -1), (-1, 0), (-1, 1), (0, -1), (0, 1), (1, -1), (1, 0), (1, 1)]

/-- The `varianceSum` accumulated by `findCornerPoints` at pixel (x, y):
the sum of absolute gradients against the 8 neighbors.  The loop only
reaches interior pixels (`x, y ≥ 1`), so the `toNat` coercions are exact. -/
def varianceSum (gray : ℕ → ℕ) (width x y : ℕ) : ℕ :=
  (neighborOffsets.map (fun p =>
    ((gray (y * width + x) : ℤ) -
      (gray ((((y : ℤ) + p.1).toNat) * width + (((x : ℤ) + p.2).toNat)) : ℤ)).natAbs)).sum

/-- `findCornerPoints` (patternRecognition.ts): flag every interior pixel
whose average absolute gradient against its 8 neighbors
(`varianceSum / (kernelSize² - 1) = varianceSum / 8`) exceeds the
threshold; row-major order. -/
def findCornerPoints (gray : ℕ → ℕ) (width height : ℕ) (threshold : ℚ) :
    List (ℕ × ℕ) :=
  (List.range' 1 (height - 2)).flatMap (fun y =>
    (List.range' 1 (width - 2)).filterMap (fun x =>
      if (varianceSum gray width x y : ℚ) / 8 > threshold then some (x, y)
      else none))

/-- Proof device: one row of corner detection at the default threshold 100,
with the rational comparison `varianceSum / 8 > 100` replaced by the
equivalent integer comparison `varianceSum > 800`. -/
def cornerRowNat (gray : ℕ → ℕ) (width y : ℕ) : List (ℕ × ℕ) :=
  (List.range' 1 (width - 2)).filterMap (fun x =>
    if 800 < varianceSum gray width x y then some (x, y) else none)

/-- Proof device: `findCornerPoints` at the default threshold 100 in pure
`ℕ` arithmetic. -/
def findCornerPointsNat (gray : ℕ → ℕ) (width height : ℕ) : List (ℕ × ℕ) :=
  (List.range' 1 (height - 2)).flatMap (cornerRowNat gray width)

theorem findCornerPoints_eq_nat (gray : ℕ → ℕ) (width height : ℕ) :
    findCornerPoints gray width height 100 = findCornerPointsNat gray width height := by
  unfold findCornerPoints findCornerPointsNat cornerRowNat
  congr 1
  funext y
  congr 1
  funext x
  congr 1
  rw [gt_iff_lt, lt_div_iff (by norm_num : (0:ℚ) < 8)]
  norm_num

/-- `cornerDist`: the `Math.sqrt(dx*dx + dy*dy)` distance used throughout
the square-formation code. -/
noncomputable def cornerDist (p q : MarkerCorner) : ℝ :=
  Real.sqrt ((p.x - q.x) * (p.x - q.x) + (p.y - q.y) * (p.y - q.y))

/-- The `i < j` double loop collecting all pairwise distances. -/
noncomputable def pairDistances : List MarkerCorner → List ℝ
  | [] => []
  | p :: rest => rest.map (cornerDist p) ++ pairDistances rest

/-- `Array.prototype.sort((a, b) => a - b)` — a stable ascending sort,
modelled by insertion sort. -/
noncomputable def sortAsc (l : List ℝ) : List ℝ :=
  l.insertionSort (fun a b => a ≤ b)

/-- `calculateCenter` (patternRecognition.ts). -/
noncomputable def calculateCenter (corners : List MarkerCorner) : MarkerCorner :=
  ⟨(corners.map (fun c => c.x)).sum / (corners.length : ℝ),
   (corners.map (fun c => c.y)).sum / (corners.length : ℝ)⟩

/-- `calculateSize` (patternRecognition.ts): mean distance from the corners
to their centroid. -/
noncomputable def calculateSize (corners : List MarkerCorner) : ℝ :=
  let center := calculateCenter corners
  (corners.map (fun corner => cornerDist corner center)).sum /
    (corners.length : ℝ)

/-- `isValidSquare` (patternRecognition.ts): the four smallest pairwise
distances are the candidate sides, the two largest the diagonals; checks on
the side coefficient of variation, minimum size, diagonal agreement and
diagonal-to-side ratio. -/
noncomputable def isValidSquare (points : List MarkerCorner) (minSize : ℝ) : Prop :=
  points.length = 4 ∧
  (let ds := sortAsc (pairDistances points)
   let sideLengths := ds.take 4
   let avgSide := sideLengths.sum / 4
   let sideVariance :=
     (sideLengths.map (fun len => (len - avgSide) ^ 2)).sum / 4
   let sideCV := Real.sqrt sideVariance / avgSide
   let avgDiagonal := (ds.getD 4 0 + ds.getD 5 0) / 2
   let diagonalVariance := |ds.getD 4 0 - ds.getD 5 0| / avgDiagonal
   let diagonalRatio := avgDiagonal / (avgSide * Real.sqrt 2)
   sideCV ≤ 0.2 ∧ minSize ≤ avgSide ∧ diagonalVariance ≤ 0.2 ∧
     0.8 < diagonalRatio ∧ diagonalRatio < 1.6)

/-- `calculateSquareConfidence` (patternRecognition.ts):
`0.3·size-score + 0.3·center-score + 0.4·regularity-score`.  The center
score `1 - (|cx-320| + |cy-240|)/800` has no lower clamp. -/
noncomputable def calculateSquareConfidence (points : List MarkerCorner) : ℝ :=
  let center := calculateCenter points
  let size := calculateSize points
  let sizeScore := min (size / 100) 1
  let centerScore := 1 - (|center.x - 320| + |center.y - 240|) / 800
  let ds := sortAsc (pairDistances points)
  let sideLengths := ds.take 4
  let avgSide := sideLengths.sum / 4
  let sideVariance :=
    (sideLengths.map (fun len => (len - avgSide) ^ 2)).sum / 4
  let regularityScore := max 0 (1 - sideVariance / avgSide)
  sizeScore * 0.3 + centerScore * 0.3 + regularityScore * 0.4

/-- A square candidate as pushed by `groupCornersIntoSquares`. -/
structure SquareCandidate where
  corners : List MarkerCorner
  confidence : ℝ

open Classical in
/-- `groupCornersIntoSquares` (patternRecognition.ts): enumerate the
4-combinations of corner candidates in index order, keep the valid squares
with their confidences, sort by descending confidence (stably, like JS
`sort((a,b) => b.confidence - a.confidence)`).  The width/height parameters
are unused in the source body. -/
noncomputable def groupCornersIntoSquares (corners : List (ℕ × ℕ))
    (_width _height : ℕ) (minSize : ℝ) : List SquareCandidate :=
  let mcorners := corners.map (fun p => (⟨(p.1 : ℝ), (p.2 : ℝ)⟩ : MarkerCorner))
  let squares :=
    ((mcorners.sublistsLen 4).filter
      (fun q => decide (isValidSquare q minSize))).map
      (fun q => SquareCandidate.mk q (calculateSquareConfidence q))
  squares.insertionSort (fun a b => b.confidence ≤ a.confidence)

/-- `calculateConfidence` (patternRecognition.ts): cap at 1.0 — there is no
floor at 0. -/
noncomputable def calculateConfidence (square : SquareCandidate) : ℝ :=
  min square.confidence 1

/-- `detectSquarePatterns` (patternRecognition.ts).  `Date.now()` is passed
in as `now`; default threshold 100, default minSize 20. -/
noncomputable def detectSquarePatterns (now : ℝ) (width height : ℕ)
    (data : ℕ → ℕ) (threshold : ℚ) (minSize : ℝ) : List DetectedPattern :=
  let grayData := grayscale data
  let cornerPoints := findCornerPoints grayData width height threshold
  let squares := groupCornersIntoSquares cornerPoints width height minSize
  squares.map (fun square =>
    { corners := square.corners
      center := calculateCenter square.corners
      size := calculateSize square.corners
      confidence := calculateConfidence square
      timestamp := now })

/-- C7: whenever fewer than 4 corner candidates are found — in particular
for a uniform buffer with no gradients — `detectSquarePatterns` returns the
empty sequence (the 4-combination enumeration is empty; the total Lean
embedding also witnesses that no exception can be raised). -/
theorem detect_empty_of_few_corners (now : ℝ) (width height : ℕ)
    (data : ℕ → ℕ) (threshold : ℚ) (minSize : ℝ)
    (h : (findCornerPoints (grayscale data) width height threshold).length < 4) :
    detectSquarePatterns now width height data threshold minSize = [] := by
  unfold detectSquarePatterns groupCornersIntoSquares
  have hsub :
      (((findCornerPoints (grayscale data) width height threshold).map
        (fun p => (⟨(p.1 : ℝ), (p.2 : ℝ)⟩ : MarkerCorner))).sublistsLen 4) = [] := by
    rw [List.eq_nil_iff_forall_not_mem]
    intro s hs
    obtain ⟨hsl, hlen⟩ := List.mem_sublistsLen.mp hs
    have := hsl.length_le
    rw [List.length_map] at this
    omega
  simp [hsub]

/-- The all-bright 4×4 RGBA buffer (every byte 255). -/
def uniformData : ℕ → ℕ := fun _ => 255

theorem grayscale_uniform : grayscale uniformData = fun _ => 255 := by
  funext i
  show Nat.min 255 ((jsRound ((0.299 : ℚ) * 255 + (0.587 : ℚ) * 255 +
    (0.114 : ℚ) * 255)).toNat) = 255
  norm_num [jsRound]

/-- C7 witness: a uniformly bright 4×4 buffer yields zero corner candidates,
hence the empty pattern list. -/
theorem detect_empty_of_few_corners_witness :
    detectSquarePatterns 0 4 4 uniformData 100 20 = [] :=
  detect_empty_of_few_corners 0 4 4 uniformData 100 20
    (by
      rw [grayscale_uniform, findCornerPoints_eq_nat]
      decide)

/-!
### A concrete 42×56 rectangle of bright pixels

Four isolated bright pixels at `(1, y0)`, `(43, y0)`, `(1, y0+56)`,
`(43, y0+56)` in a width-45 frame form a valid "square" candidate
(sides 42, 42, 56, 56; diagonals 70, 70 — Pythagorean 3-4-5 scaled by 14).
The side variance equals the average side, so the regularity score is 0,
and the confidence reduces to `0.105 + 0.3·center-score`.
-/

/-- The corner pixels of the bright rectangle at column 1, row `y0`. -/
def rectCorners (y0 : ℕ) : List (ℕ × ℕ) :=
  [(1, y0), (43, y0), (1, y0 + 56), (43, y0 + 56)]

/-- The same corners as real points. -/
noncomputable def rectMC (y0 : ℕ) : List MarkerCorner :=
  [⟨1, (y0 : ℝ)⟩, ⟨43, (y0 : ℝ)⟩, ⟨1, (y0 : ℝ) + 56⟩, ⟨43, (y0 : ℝ) + 56⟩]

theorem rectMC_eq_map (y0 : ℕ) :
    (rectCorners y0).map (fun p => (⟨(p.1 : ℝ), (p.2 : ℝ)⟩ : MarkerCorner)) =
      rectMC y0 := by
  simp only [rectCorners, rectMC, List.map_cons, List.map_nil]
  norm_num

/-- Evaluate a `cornerDist`-shaped square root. -/
theorem sqrt_dist_eq (a b u v t : ℝ)
    (h : (a - u) * (a - u) + (b - v) * (b - v) = t ^ 2) (ht : 0 ≤ t) :
    Real.sqrt ((a - u) * (a - u) + (b - v) * (b - v)) = t := by
  rw [h, Real.sqrt_sq ht]

theorem rect_pairDistances (y0 : ℕ) :
    pairDistances (rectMC y0) = [42, 56, 70, 70, 56, 42] := by
  simp only [rectMC, pairDistances, List.map_cons, List.map_nil, cornerDist,
    List.append_nil, List.cons_append, List.nil_append]
  refine congrArg₂ _ (sqrt_dist_eq _ _ _ _ 42 (by ring) (by norm_num)) ?_
  refine congrArg₂ _ (sqrt_dist_eq _ _ _ _ 56 (by ring) (by norm_num)) ?_
  refine congrArg₂ _ (sqrt_dist_eq _ _ _ _ 70 (by ring) (by norm_num)) ?_
  refine congrArg₂ _ (sqrt_dist_eq _ _ _ _ 70 (by ring) (by norm_num)) ?_
  refine congrArg₂ _ (sqrt_dist_eq _ _ _ _ 56 (by ring) (by norm_num)) ?_
  exact congrArg₂ _ (sqrt_dist_eq _ _ _ _ 42 (by ring) (by norm_num)) rfl

theorem sort_rect :
    sortAsc [(42 : ℝ), 56, 70, 70, 56, 42] = [42, 42, 56, 56, 70, 70] := by
  norm_num [sortAsc, List.insertionSort, List.orderedInsert]

theorem rect_center (y0 : ℕ) :
    calculateCenter (rectMC y0) = ⟨22, (y0 : ℝ) + 28⟩ := by
  simp only [calculateCenter, rectMC, List.map_cons, List.map_nil,
    List.sum_cons, List.sum_nil, List.length_cons, List.length_nil]
  congr 1 <;> push_cast <;> ring

theorem rect_size (y0 : ℕ) : calculateSize (rectMC y0) = 35 := by
  unfold calculateSize
  rw [rect_center]
  simp only [rectMC, List.map_cons, List.map_nil, cornerDist,
    List.sum_cons, List.sum_nil, List.length_cons, List.length_nil]
  rw [sqrt_dist_eq _ _ _ _ 35 (by ring) (by norm_num),
    sqrt_dist_eq _ _ _ _ 35 (by ring) (by norm_num),
    sqrt_dist_eq _ _ _ _ 35 (by ring) (by norm_num),
    sqrt_dist_eq _ _ _ _ 35 (by ring) (by norm_num)]
  norm_num

theorem rect_valid (y0 : ℕ) : isValidSquare (rectMC y0) 20 := by
  unfold isValidSquare
  refine ⟨by simp [rectMC], ?_⟩
  rw [rect_pairDistances, sort_rect]
  have hsqrt2pos : 0 < Real.sqrt 2 := Real.sqrt_pos.mpr (by norm_num)
  have hlow : (1.41 : ℝ) < Real.sqrt 2 := by
    nlinarith [Real.sqrt_nonneg 2, Real.sq_sqrt (show (0:ℝ) ≤ 2 by norm_num)]
  have hhigh : Real.sqrt 2 < (1.42 : ℝ) := by
    nlinarith [Real.sqrt_nonneg 2, Real.sq_sqrt (show (0:ℝ) ≤ 2 by norm_num)]
  have hvar :
      (([42, 42, 56, 56] : List ℝ).map
        (fun len => (len - ([42, 42, 56, 56] : List ℝ).sum / 4) ^ 2)).sum / 4 = 49 := by
    norm_num
  refine ⟨?_, ?_, ?_, ?_, ?_⟩
  · simp only [List.take, List.sum_cons, List.sum_nil, List.map_cons,
      List.map_nil]
    rw [show ((42:ℝ) - (42 + (42 + (56 + (56 + 0)))) / 4) ^ 2 +
        ((42 - (42 + (42 + (56 + (56 + 0)))) / 4) ^ 2 +
        ((56 - (42 + (42 + (56 + (56 + 0)))) / 4) ^ 2 +
        ((56 - (42 + (42 + (56 + (56 + 0)))) / 4) ^ 2 + 0))) = 196 from by norm_num]
    rw [show (196:ℝ) / 4 = 7 ^ 2 from by norm_num, Real.sqrt_sq (by norm_num)]
    norm_num
  · simp only [List.take, List.sum_cons, List.sum_nil]
    norm_num
  · simp only [List.getD, List.get?]
    norm_num
  · simp only [List.getD, List.get?, List.take, List.sum_cons, List.sum_nil]
    rw [lt_div_iff (by positivity)]
    norm_num
    nlinarith
  · simp only [List.getD, List.get?, List.take, List.sum_cons, List.sum_nil]
    rw [div_lt_iff (by positivity)]
    norm_num
    nlinarith

theorem rect_confidence (y0 : ℕ) :
    calculateSquareConfidence (rectMC y0) =
      0.105 + 0.3 * (1 - (|(22 : ℝ) - 320| + |(y0 : ℝ) + 28 - 240|) / 800) := by
  unfold calculateSquareConfidence
  rw [rect_center, rect_size, rect_pairDistances, sort_rect]
  simp only [List.take, List.map_cons, List.map_nil, List.sum_cons,
    List.sum_nil]
  rw [show min ((35:ℝ) / 100) 1 = 35 / 100 from min_eq_left (by norm_num)]
  rw [show ((42:ℝ) - (42 + (42 + (56 + (56 + 0)))) / 4) ^ 2 +
      ((42 - (42 + (42 + (56 + (56 + 0)))) / 4) ^ 2 +
      ((56 - (42 + (42 + (56 + (56 + 0)))) / 4) ^ 2 +
      ((56 - (42 + (42 + (56 + (56 + 0)))) / 4) ^ 2 + 0))) = 196 from by norm_num]
  rw [show max (0:ℝ) (1 - 196 / 4 / ((42 + (42 + (56 + (56 + 0)))) / 4)) = 0 from by norm_num]
  ring

/-- Grayscale frame of width 45 whose only bright pixels are the four
rectangle corners at rows `y0` and `y0 + 56`, columns 1 and 43. -/
def rectGray (y0 : ℕ) : ℕ → ℕ := fun i =>
  if i = y0 * 45 + 1 ∨ i = y0 * 45 + 43 ∨
     i = (y0 + 56) * 45 + 1 ∨ i = (y0 + 56) * 45 + 43 then 255
  else 0

/-- RGBA byte data whose grayscale conversion is `rectGray y0`: the bright
pixels are pure white (R = G = B = 255), everything else black. -/
def rectData (y0 : ℕ) : ℕ → ℕ := fun k =>
  if k % 4 = 3 then 0
  else if k / 4 = y0 * 45 + 1 ∨ k / 4 = y0 * 45 + 43 ∨
          k / 4 = (y0 + 56) * 45 + 1 ∨ k / 4 = (y0 + 56) * 45 + 43 then 255
  else 0

theorem grayscale_rectData (y0 : ℕ) : grayscale (rectData y0) = rectGray y0 := by
  funext i
  have e0 : rectData y0 (4 * i) =
      (if i = y0 * 45 + 1 ∨ i = y0 * 45 + 43 ∨
          i = (y0 + 56) * 45 + 1 ∨ i = (y0 + 56) * 45 + 43 then 255 else 0) := by
    simp only [rectData]
    rw [if_neg (by omega), show 4 * i / 4 = i from by omega]
  have e1 : rectData y0 (4 * i + 1) =
      (if i = y0 * 45 + 1 ∨ i = y0 * 45 + 43 ∨
          i = (y0 + 56) * 45 + 1 ∨ i = (y0 + 56) * 45 + 43 then 255 else 0) := by
    simp only [rectData]
    rw [if_neg (by omega), show (4 * i + 1) / 4 = i from by omega]
  have e2 : rectData y0 (4 * i + 2) =
      (if i = y0 * 45 + 1 ∨ i = y0 * 45 + 43 ∨
          i = (y0 + 56) * 45 + 1 ∨ i = (y0 + 56) * 45 + 43 then 255 else 0) := by
    simp only [rectData]
    rw [if_neg (by omega), show (4 * i + 2) / 4 = i from by omega]
  show Nat.min 255 _ = rectGray y0 i
  rw [e0, e1, e2]
  by_cases h : i = y0 * 45 + 1 ∨ i = y0 * 45 + 43 ∨
      i = (y0 + 56) * 45 + 1 ∨ i = (y0 + 56) * 45 + 43
  · rw [if_pos h]
    show Nat.min 255 _ = _
    rw [rectGray, if_pos h]
    norm_num [jsRound]
  · rw [if_neg h]
    show Nat.min 255 _ = _
    rw [rectGray, if_neg h]
    norm_num [jsRound]

/-- Rows whose 3-row window contains no bright pixel produce no corner
candidates. -/
theorem rect_far_row (y0 y : ℕ)
    (hy : y + 1 < y0 ∨ (y0 + 1 < y ∧ y + 1 < y0 + 56) ∨ y0 + 57 < y) :
    cornerRowNat (rectGray y0) 45 y = [] := by
  rw [cornerRowNat, List.filterMap_eq_nil_iff]
  intro x hx
  obtain ⟨hx1, hx2⟩ := List.mem_range'_1.mp hx
  have hxlt : x < 44 := by omega
  have hc : rectGray y0 (y * 45 + x) = 0 := by
    rw [rectGray, if_neg (by omega)]
  have hg : ∀ a b : ℤ, a.natAbs ≤ 1 → b.natAbs ≤ 1 →
      rectGray y0 ((((y : ℤ) + a).toNat) * 45 + (((x : ℤ) + b).toNat)) = 0 := by
    intro a b ha hb
    rw [rectGray, if_neg (by omega)]
  have hz : varianceSum (rectGray y0) 45 x y = 0 := by
    simp only [varianceSum, neighborOffsets, List.map_cons, List.map_nil,
      List.sum_cons, List.sum_nil]
    rw [hc, hg (-1) (-1) (by norm_num) (by norm_num),
      hg (-1) 0 (by norm_num) (by norm_num),
      hg (-1) 1 (by norm_num) (by norm_num),
      hg 0 (-1) (by norm_num) (by norm_num),
      hg 0 1 (by norm_num) (by norm_num),
      hg 1 (-1) (by norm_num) (by norm_num),
      hg 1 0 (by norm_num) (by norm_num),
      hg 1 1 (by norm_num) (by norm_num)]
    norm_num
  rw [hz]
  norm_num

/-- Corner detection over the 45×1068 frame with the rectangle at row 1010
finds exactly the four rectangle corners. -/
theorem corners_big :
    findCornerPointsNat (rectGray 1010) 45 1068 = rectCorners 1010 := by
  unfold findCornerPointsNat
  have hsegments : List.range' 1 (1068 - 2) =
      List.range' 1 1008 ++ List.range' 1009 3 ++
      List.range' 1012 53 ++ List.range' 1065 2 := by
    rw [show (1068 - 2 : ℕ) = 1066 from rfl]
    have h3 := List.range'_append 1012 53 2 1
    norm_num at h3
    have h2 := List.range'_append 1009 3 55 1
    norm_num at h2
    have h1 := List.range'_append 1 1008 58 1
    norm_num at h1
    rw [List.append_assoc, List.append_assoc, h3, h2, h1]
  rw [hsegments, List.flatMap_append, List.flatMap_append, List.flatMap_append]
  have hfarA : (List.range' 1 1008).flatMap (cornerRowNat (rectGray 1010) 45) = [] := by
    rw [List.flatMap_eq_nil_iff]
    intro y hy
    obtain ⟨h1, h2⟩ := List.mem_range'_1.mp hy
    exact rect_far_row 1010 y (by omega)
  have hfarC : (List.range' 1012 53).flatMap (cornerRowNat (rectGray 1010) 45) = [] := by
    rw [List.flatMap_eq_nil_iff]
    intro y hy
    obtain ⟨h1, h2⟩ := List.mem_range'_1.mp hy
    exact rect_far_row 1010 y (by omega)
  rw [hfarA, hfarC]
  have hB : (List.range' 1009 3).flatMap (cornerRowNat (rectGray 1010) 45) =
      [(1, 1010), (43, 1010)] := by
    show ([1009, 1010, 1011].flatMap (cornerRowNat (rectGray 1010) 45)) = _
    rw [List.flatMap_cons, List.flatMap_cons, List.flatMap_cons, List.flatMap_nil]
    rw [show cornerRowNat (rectGray 1010) 45 1009 = [] from by decide,
      show cornerRowNat (rectGray 1010) 45 1010 = [(1, 1010), (43, 1010)] from by decide,
      show cornerRowNat (rectGray 1010) 45 1011 = [] from by decide]
    rfl
  have hD : (List.range' 1065 2).flatMap (cornerRowNat (rectGray 1010) 45) =
      [(1, 1066), (43, 1066)] := by
    show ([1065, 1066].flatMap (cornerRowNat (rectGray 1010) 45)) = _
    rw [List.flatMap_cons, List.flatMap_cons, List.flatMap_nil]
    rw [show cornerRowNat (rectGray 1010) 45 1065 = [] from by decide,
      show cornerRowNat (rectGray 1010) 45 1066 = [(1, 1066), (43, 1066)] from by decide]
    rfl
  rw [hB, hD]
  rfl

/-- Corner detection over the small 45×59 frame with the rectangle at
row 1. -/
theorem corners_small :
    findCornerPointsNat (rectGray 1) 45 59 = rectCorners 1 := by
  unfold findCornerPointsNat
  have hsegments : List.range' 1 (59 - 2) =
      List.range' 1 2 ++ List.range' 3 53 ++ List.range' 56 2 := by
    rw [show (59 - 2 : ℕ) = 57 from rfl]
    have h2 := List.range'_append 3 53 2 1
    norm_num at h2
    have h1 := List.range'_append 1 2 55 1
    norm_num at h1
    rw [List.append_assoc, h2, h1]
  rw [hsegments, List.flatMap_append, List.flatMap_append]
  have hfar : (List.range' 3 53).flatMap (cornerRowNat (rectGray 1) 45) = [] := by
    rw [List.flatMap_eq_nil_iff]
    intro y hy
    obtain ⟨h1, h2⟩ := List.mem_range'_1.mp hy
    exact rect_far_row 1 y (by omega)
  rw [hfar]
  have hB : (List.range' 1 2).flatMap (cornerRowNat (rectGray 1) 45) =
      [(1, 1), (43, 1)] := by
    show ([1, 2].flatMap (cornerRowNat (rectGray 1) 45)) = _
    rw [List.flatMap_cons, List.flatMap_cons, List.flatMap_nil]
    rw [show cornerRowNat (rectGray 1) 45 1 = [(1, 1), (43, 1)] from by decide,
      show cornerRowNat (rectGray 1) 45 2 = [] from by decide]
    rfl
  have hD : (List.range' 56 2).flatMap (cornerRowNat (rectGray 1) 45) =
      [(1, 57), (43, 57)] := by
    show ([56, 57].flatMap (cornerRowNat (rectGray 1) 45)) = _
    rw [List.flatMap_cons, List.flatMap_cons, List.flatMap_nil]
    rw [show cornerRowNat (rectGray 1) 45 56 = [] from by decide,
      show cornerRowNat (rectGray 1) 45 57 = [(1, 57), (43, 57)] from by decide]
    rfl
  rw [hB, hD]
  rfl

open Classical in
/-- Full pipeline on a frame whose corner candidates are exactly the four
rectangle corners: one detected pattern, centered at `(22, y0 + 28)`, size
35, regularity 0, confidence `min (0.105 + 0.3·center-score) 1`. -/
theorem detect_rect (now : ℝ) (h : ℕ) (data : ℕ → ℕ) (y0 : ℕ)
    (hc : findCornerPoints (grayscale data) 45 h 100 = rectCorners y0) :
    detectSquarePatterns now 45 h data 100 20 =
      [{ corners := rectMC y0
         center := ⟨22, (y0 : ℝ) + 28⟩
         size := 35
         confidence :=
           min (0.105 + 0.3 *
             (1 - (|(22 : ℝ) - 320| + |(y0 : ℝ) + 28 - 240|) / 800)) 1
         timestamp := now }] := by
  simp only [detectSquarePatterns]
  rw [hc]
  simp only [groupCornersIntoSquares]
  rw [rectMC_eq_map]
  have hsub : (rectMC y0).sublistsLen 4 = [rectMC y0] := rfl
  rw [hsub]
  have hfilter : [rectMC y0].filter (fun q => decide (isValidSquare q 20)) =
      [rectMC y0] := by
    simp [List.filter_cons, decide_eq_true (rect_valid y0)]
  rw [hfilter]
  simp only [List.map_cons, List.map_nil]
  rw [show (([SquareCandidate.mk (rectMC y0) (calculateSquareConfidence (rectMC y0))]).insertionSort
      (fun a b => b.confidence ≤ a.confidence)) =
      [SquareCandidate.mk (rectMC y0) (calculateSquareConfidence (rectMC y0))] from rfl]
  simp only [List.map_cons, List.map_nil, calculateConfidence]
  rw [rect_center, rect_size, rect_confidence]

/-- C9 counterexample: on a 45×1068 frame whose four bright pixels form a
valid 42×56 candidate centered at (22, 1038) — far from the assumed 640×480
frame center — `detectSquarePatterns` returns exactly one pattern whose
confidence is −3/500 < 0, outside [0, 1]. -/
theorem detect_confidence_counterexample :
    (detectSquarePatterns 0 45 1068 (rectData 1010) 100 20).map
      (fun p => p.confidence) = [-(3 / 500 : ℝ)] ∧
    ¬ (0 : ℝ) ≤ -(3 / 500 : ℝ) := by
  have hc : findCornerPoints (grayscale (rectData 1010)) 45 1068 100 =
      rectCorners 1010 := by
    rw [grayscale_rectData, findCornerPoints_eq_nat]
    exact corners_big
  rw [detect_rect 0 1068 (rectData 1010) 1010 hc]
  have habs1 : |(22 : ℝ) - 320| = 298 := by
    rw [abs_of_nonpos (by norm_num)]
    norm_num
  have habs2 : |((1010 : ℕ) : ℝ) + 28 - 240| = 798 := by
    rw [abs_of_nonneg (by norm_num)]
    norm_num
  have hval : (0.105 : ℝ) + 0.3 *
      (1 - (|(22 : ℝ) - 320| + |((1010 : ℕ) : ℝ) + 28 - 240|) / 800) =
      -(3 / 500) := by
    rw [habs1, habs2]
    norm_num
  constructor
  · simp only [List.map_cons, List.map_nil]
    rw [hval, min_eq_left (by norm_num)]
  · norm_num

/-- C9 (amended): every pattern returned by `detectSquarePatterns` has
confidence `min (calculateSquareConfidence corners) 1` — capped above at 1,
so confidence ≤ 1 always, but with no floor at 0: the confidence is negative
whenever the weighted score is, since the center-proximity term is unbounded
below for centroids far from the assumed 640×480 frame center. -/
theorem detect_confidence_capped (now : ℝ) (width height : ℕ)
    (data : ℕ → ℕ) (threshold : ℚ) (minSize : ℝ) (p : DetectedPattern)
    (hp : p ∈ detectSquarePatterns now width height data threshold minSize) :
    p.confidence = min (calculateSquareConfidence p.corners) 1 ∧
    p.confidence ≤ 1 := by
  simp only [detectSquarePatterns] at hp
  obtain ⟨sq, hsq, rfl⟩ := List.mem_map.mp hp
  have hsq2 : sq.confidence = calculateSquareConfidence sq.corners := by
    simp only [groupCornersIntoSquares] at hsq
    have hmem := (List.perm_insertionSort _ _).mem_iff.mp hsq
    obtain ⟨q, _, rfl⟩ := List.mem_map.mp hmem
    rfl
  refine ⟨?_, ?_⟩
  · show calculateConfidence sq = _
    rw [calculateConfidence, hsq2]
  · show calculateConfidence sq ≤ 1
    rw [calculateConfidence]
    exact min_le_right _ _

/-- C9 witness: the cap theorem applied to the pattern detected in a 45×59
frame with the rectangle at row 1 (confidence 1713/8000 ∈ [0, 1]). -/
theorem detect_confidence_capped_witness :
    ({ corners := rectMC 1
       center := ⟨22, ((1 : ℕ) : ℝ) + 28⟩
       size := 35
       confidence :=
         min (0.105 + 0.3 *
           (1 - (|(22 : ℝ) - 320| + |((1 : ℕ) : ℝ) + 28 - 240|) / 800)) 1
       timestamp := (0 : ℝ) } : DetectedPattern).confidence =
      min (calculateSquareConfidence
        ({ corners := rectMC 1
           center := ⟨22, ((1 : ℕ) : ℝ) + 28⟩
           size := 35
           confidence :=
             min (0.105 + 0.3 *
               (1 - (|(22 : ℝ) - 320| + |((1 : ℕ) : ℝ) + 28 - 240|) / 800)) 1
           timestamp := (0 : ℝ) } : DetectedPattern).corners) 1 ∧
    ({ corners := rectMC 1
       center := ⟨22, ((1 : ℕ) : ℝ) + 28⟩
       size := 35
       confidence :=
         min (0.105 + 0.3 *
           (1 - (|(22 : ℝ) - 320| + |((1 : ℕ) : ℝ) + 28 - 240|) / 800)) 1
       timestamp := (0 : ℝ) } : DetectedPattern).confidence ≤ 1 :=
  detect_confidence_capped 0 45 59 (rectData 1) 100 20 _
    (by
      rw [detect_rect 0 59 (rectData 1) 1
        (by
          rw [grayscale_rectData, findCornerPoints_eq_nat]
          exact corners_small)]
      exact List.mem_singleton_self _)

end WeldingSim
